import Mathlib

/-!
Shallow embedding of `src/main.rs` of the restore-symlink utility.

The program walks a file or directory tree and converts plain text files
whose entire content is an existing path into symlinks pointing at that
path.  We model the filesystem as a static oracle (`FS`): the program's
reads query the oracle, and its writes (file removal, symlink creation)
are recorded as events in an output trace together with every `println!`.
Within a single run the program never re-reads a path it has modified,
so a static oracle plus an action trace is a faithful observable
semantics.

Standard input is modelled as the stream of bytes successive `read`
calls deposit in the one-byte buffer (a failed or empty read leaves the
buffer byte 0, i.e. the NUL character).  The confirmation loop is given
fuel; exhausting the fuel models divergence (`Halt.stuck`).  A call of
`unwrap` on an error is modelled as `Halt.panicked`, which aborts the
whole traversal.
-/

namespace RestoreSymlink

/-- The single-quote character, used in several of the program's messages. -/
def squote : String := (Char.ofNat 39).toString

/-- The subset of `std::fs::Metadata` the program consults. -/
structure Metadata where
  len : Nat
  isDir : Bool
  isFile : Bool
  isSymlink : Bool
deriving Repr, DecidableEq

/-- Command-line arguments (struct `Args` in the source, minus clap). -/
structure Args where
  path : String
  recursive : Bool
  silent : Bool
  interactive : Bool
  len : Nat
  verbose : Bool
deriving Repr, DecidableEq

/-- Filesystem oracle: the results the OS returns to the program's queries.
`metadata` models `fs::metadata`, `readToString` models
`fs::read_to_string`, `pathExists` models `Path::exists`,
`symlinkResult target path` models `unix::fs::symlink(target, path)`
(`none` = success, `some e` = the OS error text), and `readLink` models
`fs::read_link`. -/
structure FS where
  metadata : String → Except String Metadata
  readToString : String → Except String String
  pathExists : String → Bool
  symlinkResult : String → String → Option String
  readLink : String → Option String

/-- A filesystem modification performed by the program. -/
inductive FsAction where
  | removeFile (path : String)
  | createSymlink (target : String) (path : String)
deriving Repr, DecidableEq

/-- An observable step: a printed line or a filesystem modification. -/
inductive Event where
  | print (msg : String)
  | fsAct (a : FsAction)
deriving Repr, DecidableEq

/-- How a run ends: normally, by a `panic` (an `unwrap` of an error), or
stuck forever in the confirmation read loop. -/
inductive Halt where
  | normal
  | panicked
  | stuck
deriving Repr, DecidableEq

/-- `true` iff the string starts with a path separator (Unix `is_absolute`). -/
def isAbsolute (s : String) : Bool :=
  match s.toList with
  | [] => false
  | c :: _ => c = '/'

/-- `true` iff the string ends with a path separator. -/
def endsWithSlash (s : String) : Bool :=
  match s.toList.getLast? with
  | some c => c = '/'
  | none => false

/-- `Path::join` on Unix: an absolute argument replaces the base path,
otherwise the argument is appended behind a separator. -/
def pathJoin (p s : String) : String :=
  if isAbsolute s then s
  else if p = "" then s
  else if endsWithSlash p then p ++ s
  else p ++ "/" ++ s

/-- Split a character list at every occurrence of `c` (the pieces do not
contain `c`; n separators yield n+1 pieces). -/
def splitOnChar (c : Char) : List Char → List (List Char)
  | [] => [[]]
  | x :: xs =>
    if x = c then [] :: splitOnChar c xs
    else
      match splitOnChar c xs with
      | [] => [[x]]
      | h :: t => (x :: h) :: t

/-- Interleave a path separator between the pieces. -/
def joinSlash : List (List Char) → List Char
  | [] => []
  | [x] => x
  | x :: xs => x ++ '/' :: joinSlash xs

/-- `Path::parent`: the path without its final component; `none` for the
root and for the empty path.  (Component normalisation of trailing
separators and `.` segments is not modelled.) -/
def pathParent (p : String) : Option String :=
  if p = "" ∨ p = "/" then none
  else
    let parts := splitOnChar '/' p.toList
    let r := String.mk (joinSlash parts.dropLast)
    if r = "" ∧ isAbsolute p then some "/" else some r

/-- `print_error` from the source: the `Cannot convert` line. -/
def printErrorMsg (path reason : String) : String :=
  "Cannot convert " ++ squote ++ path ++ squote ++ ": " ++ reason

/-- The verbose too-large notice printed by `convert_file`. -/
def tooBigMsg (path : String) (size lenLimit : Nat) : String :=
  "File " ++ path ++ " is too big to be considered as symlink(" ++
    toString size ++ " > " ++ toString lenLimit ++ ")"

/-- The verbose missing-target notice printed by `convert_file`. -/
def targetMissingMsg (path link : String) : String :=
  "Symlink target " ++ path ++ " -> " ++ link ++ " does not exists"

/-- The interactive confirmation prompt. -/
def confirmMsg (file link : String) : String :=
  "Convert " ++ squote ++ file ++ squote ++ " file into symlink " ++
    squote ++ link ++ squote ++ "?"

/-- The re-prompt printed on an input byte other than y/Y/n/N. -/
def repromptMsg : String := "y/n only please."

/-- The success message printed after a conversion. -/
def convertedMsg (path link : String) : String :=
  "Converted to symlink: " ++ path ++ " -> " ++ link

/-- The verbose notice printed when a symlink directory entry is skipped. -/
def skippedSymlinkMsg (path target : String) : String :=
  "Skipped symlink " ++ path ++ " -> " ++ target

/-- `link_target_exists` from the source: with a parent directory the
candidate is joined to it, otherwise it is checked directly. -/
def link_target_exists (fs : FS) (path : Option String) (link : String) : Bool :=
  match path with
  | some p => fs.pathExists (pathJoin p link)
  | none => fs.pathExists link

/-- The `loop` body of `ask_for_confirmation`: read one byte per attempt
(`stdin i` is the buffer byte after the i-th read; 0 when the read fails
or returns no data), answer on y/Y/n/N, re-prompt otherwise.  `fuel`
bounds the number of attempts we unfold; `none` means the loop has not
returned within the fuel. -/
def askLoop (stdin : Nat → Char) : Nat → Nat → Option Bool × List Event
  | _, 0 => (none, [])
  | i, fuel + 1 =>
    let c := stdin i
    if c = 'y' ∨ c = 'Y' then (some true, [])
    else if c = 'n' ∨ c = 'N' then (some false, [])
    else
      let r := askLoop stdin (i + 1) fuel
      (r.1, Event.print repromptMsg :: r.2)

/-- `ask_for_confirmation` from the source: print the prompt, then run
the read loop. -/
def ask_for_confirmation (stdin : Nat → Char) (fuel : Nat)
    (file link : String) : Option Bool × List Event :=
  let r := askLoop stdin 0 fuel
  (r.1, Event.print (confirmMsg file link) :: r.2)

/-- The proceed branch of `convert_file`: remove the original (result
ignored), then create the symlink; on failure print the error and stop,
on success print the conversion unless `silent`. -/
def proceedEvents (fs : FS) (file_path link_val : String) (args : Args) :
    List Event :=
  Event.fsAct (FsAction.removeFile file_path) ::
    match fs.symlinkResult link_val file_path with
    | some err => [Event.print (printErrorMsg file_path err)]
    | none =>
      Event.fsAct (FsAction.createSymlink link_val file_path) ::
        if args.silent then [] else
          [Event.print (convertedMsg file_path link_val)]

/-- `convert_file` from the source.  Note the control flow of the first
block: when `fs::metadata` succeeds the function returns right after the
size check, whether or not the size exceeded the limit; the read /
existence-check / conversion path below is reached only when the
metadata query fails. -/
def convert_file (fs : FS) (stdin : Nat → Char) (askFuel : Nat)
    (file_path : String) (args : Args) : List Event × Halt :=
  match fs.metadata file_path with
  | Except.ok metadata =>
    if metadata.len > args.len then
      if args.verbose then
        ([Event.print (tooBigMsg file_path metadata.len args.len)], Halt.normal)
      else ([], Halt.normal)
    else ([], Halt.normal)
  | Except.error _ =>
    match fs.readToString file_path with
    | Except.ok link_val =>
      if !link_target_exists fs (pathParent file_path) link_val then
        if args.verbose then
          ([Event.print (targetMissingMsg file_path link_val)], Halt.normal)
        else ([], Halt.normal)
      else
        if args.interactive then
          let r := ask_for_confirmation stdin askFuel file_path link_val
          match r.1 with
          | none => (r.2, Halt.stuck)
          | some true =>
            (r.2 ++ proceedEvents fs file_path link_val args, Halt.normal)
          | some false => (r.2, Halt.normal)
        else (proceedEvents fs file_path link_val args, Halt.normal)
    | Except.error _ => ([], Halt.normal)

/-- One `read_dir` entry as the iterator yields it: either an `Err`
(whose error text is printed against the containing directory) or an
`Ok` entry carrying its path, the result of `entry.metadata()` (`none`
models the metadata query failing, which the source `unwrap`s), and —
for directories — the result of listing it in turn. -/
inductive Entry where
  | err (msg : String)
  | node (path : String) (md : Option Metadata)
      (sub : Except String (List Entry))

/-- Sequencing of traversal results: the second part runs only when the
first halted normally; a panic or a stuck read loop cuts the run short. -/
def seqRes (a b : List Event × Halt) : List Event × Halt :=
  match a with
  | (evs, Halt.normal) => (evs ++ b.1, b.2)
  | r => r

/-- The non-directory arm of the entry dispatch in `convert_dir`:
regular file → `convert_file`; symlink → skipped, with a verbose notice
showing `fs::read_link` (or the default empty path when it fails); any
other kind → the `Not a directory or a file or a symlink` error. -/
def nonDirEntryRes (fs : FS) (stdin : Nat → Char) (askFuel : Nat)
    (args : Args) (path : String) (m : Metadata) : List Event × Halt :=
  if m.isFile then convert_file fs stdin askFuel path args
  else if m.isSymlink then
    if args.verbose then
      ([Event.print (skippedSymlinkMsg path ((fs.readLink path).getD ""))],
        Halt.normal)
    else ([], Halt.normal)
  else
    ([Event.print (printErrorMsg path "Not a directory or a file or a symlink")],
      Halt.normal)

/-- The `for entry in dir` loop of `convert_dir` over the entries of
`dirPath`: per-entry errors are printed and the loop continues; an entry
whose metadata query failed panics the whole process (`unwrap`);
directory entries recurse into their own listing (a failed listing is
printed and that subtree abandoned). -/
def convertEntries (fs : FS) (stdin : Nat → Char) (askFuel : Nat)
    (args : Args) : String → List Entry → List Event × Halt
  | _, [] => ([], Halt.normal)
  | dirPath, Entry.err msg :: rest =>
    seqRes ([Event.print (printErrorMsg dirPath msg)], Halt.normal)
      (convertEntries fs stdin askFuel args dirPath rest)
  | _, Entry.node _ none _ :: _ => ([], Halt.panicked)
  | dirPath, Entry.node path (some m) (Except.error e) :: rest =>
    seqRes
      (if m.isDir then ([Event.print (printErrorMsg path e)], Halt.normal)
       else nonDirEntryRes fs stdin askFuel args path m)
      (convertEntries fs stdin askFuel args dirPath rest)
  | dirPath, Entry.node path (some m) (Except.ok es) :: rest =>
    seqRes
      (if m.isDir then convertEntries fs stdin askFuel args path es
       else nonDirEntryRes fs stdin askFuel args path m)
      (convertEntries fs stdin askFuel args dirPath rest)

/-- `convert_dir` from the source: list the directory (the listing
result is the `Except` argument; a failure is printed once and the
subtree abandoned), then process the entries. -/
def convert_dir (fs : FS) (stdin : Nat → Char) (askFuel : Nat)
    (args : Args) (dir_path : String)
    (listing : Except String (List Entry)) : List Event × Halt :=
  match listing with
  | Except.error e => ([Event.print (printErrorMsg dir_path e)], Halt.normal)
  | Except.ok entries => convertEntries fs stdin askFuel args dir_path entries

/-- `main` from the source, after argument parsing: classify the root
path via `fs::metadata` and dispatch.  `rootListing` is the result
`fs::read_dir` would return on the root (consulted only when the root is
a directory and `recursive` is set). -/
def mainRun (fs : FS) (stdin : Nat → Char) (askFuel : Nat) (args : Args)
    (rootListing : Except String (List Entry)) : List Event × Halt :=
  match fs.metadata args.path with
  | Except.ok md =>
    if md.isDir then
      if args.recursive then
        convert_dir fs stdin askFuel args args.path rootListing
      else
        ([Event.print (printErrorMsg args.path
            ("Is a directory. Please specify " ++ squote ++ "recursive" ++
              squote ++ " flag"))], Halt.normal)
    else if md.isFile then convert_file fs stdin askFuel args.path args
    else
      ([Event.print (printErrorMsg args.path "Not a directory or file")],
        Halt.normal)
  | Except.error e =>
    ([Event.print (printErrorMsg args.path e)], Halt.normal)

/-- `true` iff the metadata query on `p` succeeds. -/
def metaOk (fs : FS) (p : String) : Bool :=
  match fs.metadata p with
  | Except.ok _ => true
  | Except.error _ => false

/-- A directory tree is coherent with the filesystem oracle when every
regular-file entry's path answers its metadata query — the situation a
real filesystem snapshot presents to the traversal (an entry discovered
by `read_dir` exists, so `fs::metadata` on it succeeds barring races). -/
def entriesCoherent (fs : FS) : List Entry → Bool
  | [] => true
  | Entry.err _ :: rest => entriesCoherent fs rest
  | Entry.node _ none _ :: rest => entriesCoherent fs rest
  | Entry.node p (some m) (Except.error _) :: rest =>
    (if m.isDir then true
     else if m.isFile then metaOk fs p
     else true) && entriesCoherent fs rest
  | Entry.node p (some m) (Except.ok es) :: rest =>
    (if m.isDir then entriesCoherent fs es
     else if m.isFile then metaOk fs p
     else true) && entriesCoherent fs rest

/-! ### Concrete fixtures used by the witness theorems -/

/-- Metadata of a regular file of `n` bytes. -/
def mdFile (n : Nat) : Metadata := ⟨n, false, true, false⟩

/-- Metadata of a directory. -/
def mdDir : Metadata := ⟨0, true, false, false⟩

/-- Metadata of a symlink entry. -/
def mdLink : Metadata := ⟨10, false, false, true⟩

/-- An oracle in which `d/link.txt` is a 10-byte regular file whose
content `target.txt` resolves next to it. -/
def fsOk : FS :=
  { metadata := fun p =>
      if p = "d/link.txt" then Except.ok (mdFile 10)
      else if p = "d" then Except.ok mdDir
      else Except.error "No such file or directory (os error 2)"
    readToString := fun p =>
      if p = "d/link.txt" then Except.ok "target.txt"
      else Except.error "stream did not contain valid UTF-8"
    pathExists := fun p => p == "d/target.txt" || p == "target.txt"
    symlinkResult := fun _ _ => none
    readLink := fun _ => none }

/-- Like `fsOk` but every metadata query fails: the only situation in
which the source's conversion path is reachable. -/
def fsGone : FS :=
  { fsOk with metadata := fun _ => Except.error "No such file or directory (os error 2)" }

/-- An oracle for the `link_target_exists` counterexample: only the bare
path `x` exists; `d/x` does not. -/
def fsOnlyX : FS :=
  { metadata := fun _ => Except.error "e"
    readToString := fun _ => Except.error "e"
    pathExists := fun p => p == "x"
    symlinkResult := fun _ _ => none
    readLink := fun _ => none }

/-- An oracle whose only successful metadata query is `d/a/f.txt`, for
the coherent-traversal witness. -/
def fsTree : FS :=
  { metadata := fun p =>
      if p = "d/a/f.txt" then Except.ok (mdFile 3)
      else Except.error "No such file or directory (os error 2)"
    readToString := fun _ => Except.error "e"
    pathExists := fun _ => false
    symlinkResult := fun _ _ => none
    readLink := fun p => if p = "d/s" then some "old" else none }

/-- Standard input that always delivers `y`. -/
def stdinY : Nat → Char := fun _ => 'y'

/-- Standard input delivering one invalid byte, then `n`. -/
def stdinQN : Nat → Char := fun i => if i = 0 then 'q' else 'n'

/-- Standard input delivering one invalid byte, then `y`. -/
def stdinQY : Nat → Char := fun i => if i = 0 then 'q' else 'y'

/-- Standard input whose reads never deliver data: the buffer keeps the
NUL byte, as after end-of-input. -/
def stdinNul : Nat → Char := fun _ => Char.ofNat 0

/-- A baseline argument vector: recursive, verbose, not interactive,
default 512-byte threshold. -/
def argsBase : Args :=
  { path := "d", recursive := true, silent := false, interactive := false
    len := 512, verbose := true }

/-- An oracle in which `d/big.txt` is a 600-byte regular file. -/
def fsBig : FS :=
  { fsOk with metadata := fun p =>
      if p = "d/big.txt" then Except.ok (mdFile 600)
      else Except.error "No such file or directory (os error 2)" }

/-- A small coherent directory tree over `fsTree`: a subdirectory with
one regular file, a symlink entry, and a per-entry read error. -/
def treeW : List Entry :=
  [Entry.node "d/a" (some mdDir)
      (Except.ok [Entry.node "d/a/f.txt" (some (mdFile 3)) (Except.error "nd")]),
    Entry.node "d/s" (some mdLink) (Except.error "nd"),
    Entry.err "boom"]

/-! ### Helper lemmas -/

/-- Every event the confirmation read loop emits is the re-prompt line. -/
lemma askLoop_events_reprompt (stdin : Nat → Char) :
    ∀ fuel i, ∀ ev ∈ (askLoop stdin i fuel).2, ev = Event.print repromptMsg := by
  intro fuel
  induction fuel with
  | zero => intro i ev h; simp [askLoop] at h
  | succ n ih =>
    intro i ev h
    by_cases h1 : stdin i = 'y' ∨ stdin i = 'Y'
    · simp [askLoop, h1] at h
    · by_cases h2 : stdin i = 'n' ∨ stdin i = 'N'
      · simp [askLoop, h1, h2] at h
      · simp only [askLoop, if_neg h1, if_neg h2, List.mem_cons] at h
        rcases h with h | h
        · exact h
        · exact ih (i + 1) ev h

/-! ### Claim theorems -/

/-- C10: the confirmation loop returns an answer only when some read
attempt delivered one of the bytes y/Y/n/N; when no attempt ever does
(for example after end of input, where every read leaves the NUL byte in
the buffer), the loop never returns and emits one re-prompt per attempt,
for any number of attempts unfolded. -/
theorem askLoop_terminates_only_on_valid_byte (stdin : Nat → Char) :
    (∀ fuel i b evs, askLoop stdin i fuel = (some b, evs) →
      ∃ j, stdin j = 'y' ∨ stdin j = 'Y' ∨ stdin j = 'n' ∨ stdin j = 'N')
    ∧ ((∀ j, ¬(stdin j = 'y' ∨ stdin j = 'Y' ∨ stdin j = 'n' ∨ stdin j = 'N')) →
      ∀ fuel i, askLoop stdin i fuel =
        (none, List.replicate fuel (Event.print repromptMsg))) := by
  constructor
  · intro fuel
    induction fuel with
    | zero => intro i b evs h; simp [askLoop] at h
    | succ n ih =>
      intro i b evs h
      by_cases h1 : stdin i = 'y' ∨ stdin i = 'Y'
      · exact ⟨i, by tauto⟩
      · by_cases h2 : stdin i = 'n' ∨ stdin i = 'N'
        · exact ⟨i, by tauto⟩
        · simp only [askLoop, if_neg h1, if_neg h2, Prod.mk.injEq] at h
          rcases hr : askLoop stdin (i + 1) n with ⟨r1, r2⟩
          rw [hr] at h
          exact ih (i + 1) b r2
            (by rw [hr, show r1 = some b from h.1])
  · intro hv fuel
    induction fuel with
    | zero => intro i; simp [askLoop]
    | succ n ih =>
      intro i
      have h1 : ¬(stdin i = 'y' ∨ stdin i = 'Y') := fun h => hv i (by tauto)
      have h2 : ¬(stdin i = 'n' ∨ stdin i = 'N') := fun h => hv i (by tauto)
      simp only [askLoop, if_neg h1, if_neg h2, ih i.succ, List.replicate_succ]

/-- C10 witness: with reads that never deliver data (NUL byte each
time), the loop yields no answer and one re-prompt per attempt. -/
theorem askLoop_terminates_only_on_valid_byte_w :
    askLoop stdinNul 0 5 = (none, List.replicate 5 (Event.print repromptMsg)) :=
  (askLoop_terminates_only_on_valid_byte stdinNul).2 (fun j => by
    simp only [stdinNul]; decide) 5 0

/-- C2: whenever the metadata query on the candidate file succeeds,
`convert_file` produces at most the verbose too-large notice and halts
normally — no filesystem action, no read of the content (the result does
not depend on `readToString`, `pathExists`, or `symlinkResult`), whatever
the size.  The conversion path is reachable only when the metadata query
fails. -/
theorem convert_file_metadata_ok_frame (fs : FS) (stdin : Nat → Char)
    (askFuel : Nat) (file_path : String) (args : Args) (md : Metadata)
    (h : fs.metadata file_path = Except.ok md) :
    convert_file fs stdin askFuel file_path args =
      ((if md.len > args.len ∧ args.verbose = true then
          [Event.print (tooBigMsg file_path md.len args.len)] else []),
        Halt.normal) := by
  unfold convert_file
  rw [h]
  by_cases h1 : md.len > args.len <;> by_cases h2 : args.verbose = true <;>
    simp [h1, h2]

/-- C2 witness: a 10-byte file whose content would resolve is still left
alone — its metadata query succeeds, so `convert_file` returns at once. -/
theorem convert_file_metadata_ok_frame_w :
    convert_file fsOk stdinY 3 "d/link.txt" argsBase =
      ((if (mdFile 10).len > argsBase.len ∧ argsBase.verbose = true then
          [Event.print (tooBigMsg "d/link.txt" (mdFile 10).len argsBase.len)]
        else []), Halt.normal) :=
  convert_file_metadata_ok_frame fsOk stdinY 3 "d/link.txt" argsBase
    (mdFile 10) rfl

/-- C7: a file larger than the threshold is left untouched — the trace
holds no filesystem action, only (when `verbose`) the too-large notice,
whose text carries both the file's byte size and the threshold. -/
theorem convert_file_too_large (fs : FS) (stdin : Nat → Char)
    (askFuel : Nat) (file_path : String) (args : Args) (md : Metadata)
    (h : fs.metadata file_path = Except.ok md) (hlen : md.len > args.len) :
    convert_file fs stdin askFuel file_path args =
      ((if args.verbose = true then
          [Event.print (tooBigMsg file_path md.len args.len)] else []),
        Halt.normal)
    ∧ ∃ s1 s2 s3,
        tooBigMsg file_path md.len args.len =
          s1 ++ toString md.len ++ s2 ++ toString args.len ++ s3 := by
  constructor
  · unfold convert_file
    rw [h]
    by_cases h2 : args.verbose = true <;> simp [hlen, h2]
  · exact ⟨"File " ++ file_path ++ " is too big to be considered as symlink(",
      " > ", ")", rfl⟩

/-- C7 witness: a 600-byte file against the default 512-byte threshold
is skipped with the verbose notice carrying `600` and `512`. -/
theorem convert_file_too_large_w :
    convert_file fsBig stdinY 3 "d/big.txt" argsBase =
      ((if argsBase.verbose = true then
          [Event.print (tooBigMsg "d/big.txt" (mdFile 600).len argsBase.len)]
        else []), Halt.normal)
    ∧ ∃ s1 s2 s3,
        tooBigMsg "d/big.txt" (mdFile 600).len argsBase.len =
          s1 ++ toString (mdFile 600).len ++ s2 ++ toString argsBase.len ++ s3 :=
  convert_file_too_large fsBig stdinY 3 "d/big.txt" argsBase (mdFile 600)
    rfl (by decide)

/-- C4: on a proceeding conversion the original file is removed first
(the removal's result is ignored), then the symlink is created.  If the
creation fails, the only further event is the error line, which carries
the OS error text; nothing restores the removed original.  On success
the conversion message follows unless `silent` is set. -/
theorem convert_file_proceed (fs : FS) (stdin : Nat → Char) (askFuel : Nat)
    (file_path : String) (args : Args) (link_val e : String)
    (hmd : fs.metadata file_path = Except.error e)
    (hrd : fs.readToString file_path = Except.ok link_val)
    (hex : link_target_exists fs (pathParent file_path) link_val = true)
    (hni : args.interactive = false) :
    convert_file fs stdin askFuel file_path args =
      (Event.fsAct (FsAction.removeFile file_path) ::
        (match fs.symlinkResult link_val file_path with
         | some err => [Event.print (printErrorMsg file_path err)]
         | none =>
           Event.fsAct (FsAction.createSymlink link_val file_path) ::
             if args.silent = true then []
             else [Event.print (convertedMsg file_path link_val)]),
        Halt.normal)
    ∧ ∀ err, ∃ s, printErrorMsg file_path err = s ++ err := by
  constructor
  · unfold convert_file
    rw [hmd, hrd]
    simp [hex, hni, proceedEvents]
  · intro err
    exact ⟨"Cannot convert " ++ squote ++ file_path ++ squote ++ ": ", rfl⟩

/-- C4 witness: a concrete proceeding conversion removes the file, then
creates the symlink, then reports the conversion. -/
theorem convert_file_proceed_w :
    convert_file fsGone stdinY 3 "d/link.txt" argsBase =
      (Event.fsAct (FsAction.removeFile "d/link.txt") ::
        (match fsGone.symlinkResult "target.txt" "d/link.txt" with
         | some err => [Event.print (printErrorMsg "d/link.txt" err)]
         | none =>
           Event.fsAct (FsAction.createSymlink "target.txt" "d/link.txt") ::
             if argsBase.silent = true then []
             else [Event.print (convertedMsg "d/link.txt" "target.txt")]),
        Halt.normal)
    ∧ ∀ err, ∃ s, printErrorMsg "d/link.txt" err = s ++ err :=
  convert_file_proceed fsGone stdinY 3 "d/link.txt" argsBase "target.txt"
    "No such file or directory (os error 2)" rfl rfl (by decide) rfl

/-- C6: in interactive mode (on the branch where the conversion path is
reachable at all, i.e. the metadata query failed), the prompt carries
the file path and the intended target; every event the read loop emits
before an answer is the re-prompt line; an `n`/`N` answer leaves the
trace free of any filesystem action; a `y`/`Y` answer appends exactly
the trace of the non-interactive run after the prompt events. -/
theorem convert_file_interactive (fs : FS) (stdin : Nat → Char)
    (askFuel : Nat) (file_path : String) (args : Args) (link_val e : String)
    (ans : Option Bool) (evs : List Event)
    (hmd : fs.metadata file_path = Except.error e)
    (hrd : fs.readToString file_path = Except.ok link_val)
    (hex : link_target_exists fs (pathParent file_path) link_val = true)
    (hi : args.interactive = true)
    (hask : askLoop stdin 0 askFuel = (ans, evs)) :
    (∃ s1 s2 s3, confirmMsg file_path link_val =
        s1 ++ file_path ++ s2 ++ link_val ++ s3)
    ∧ (∀ ev ∈ evs, ev = Event.print repromptMsg)
    ∧ (ans = some false →
        convert_file fs stdin askFuel file_path args =
          (Event.print (confirmMsg file_path link_val) :: evs, Halt.normal))
    ∧ (ans = some true →
        convert_file fs stdin askFuel file_path args =
          ((Event.print (confirmMsg file_path link_val) :: evs) ++
            (convert_file fs stdin askFuel file_path
              { args with interactive := false }).1, Halt.normal)) := by
  refine ⟨⟨"Convert " ++ squote, squote ++ " file into symlink " ++ squote,
      squote ++ "?", by simp [confirmMsg, String.append_assoc]⟩, ?_, ?_, ?_⟩
  · intro ev hev
    have := askLoop_events_reprompt stdin askFuel 0 ev
    rw [hask] at this
    exact this hev
  · intro hans
    unfold convert_file
    rw [hmd, hrd]
    simp [hex, hi, ask_for_confirmation, hask, hans]
  · intro hans
    unfold convert_file
    rw [hmd, hrd]
    simp [hex, hi, ask_for_confirmation, hask, hans, proceedEvents]

/-- C6 witness: one invalid byte then `y` re-prompts once and then
converts exactly as the non-interactive run would. -/
theorem convert_file_interactive_w :
    ((∃ s1 s2 s3, confirmMsg "d/link.txt" "target.txt" =
        s1 ++ "d/link.txt" ++ s2 ++ "target.txt" ++ s3)
    ∧ (∀ ev ∈ [Event.print repromptMsg], ev = Event.print repromptMsg)
    ∧ ((some true : Option Bool) = some false →
        convert_file fsGone stdinQY 3 "d/link.txt"
            { argsBase with interactive := true } =
          (Event.print (confirmMsg "d/link.txt" "target.txt") ::
            [Event.print repromptMsg], Halt.normal))
    ∧ ((some true : Option Bool) = some true →
        convert_file fsGone stdinQY 3 "d/link.txt"
            { argsBase with interactive := true } =
          ((Event.print (confirmMsg "d/link.txt" "target.txt") ::
              [Event.print repromptMsg]) ++
            (convert_file fsGone stdinQY 3 "d/link.txt"
              { { argsBase with interactive := true } with
                  interactive := false }).1, Halt.normal))) :=
  convert_file_interactive fsGone stdinQY 3 "d/link.txt"
    { argsBase with interactive := true } "target.txt"
    "No such file or directory (os error 2)" (some true)
    [Event.print repromptMsg] rfl rfl (by decide) rfl (by decide)

/-- C1 (code bug, evaluation at the failing input): `d/link.txt` is a
10-byte regular file — well under the 512-byte threshold — whose entire
content `target.txt` resolves next to it, yet `convert_file` performs no
filesystem action at all: the `return` after the size check in the
source sits outside the `if metadata.len() > args.len` block, so any
file whose metadata query succeeds is returned from unconverted.  The
conjunction records that every eligibility condition of the claim holds
at this input and that the trace is nevertheless empty. -/
theorem convert_file_eligible_file_not_converted :
    (fsOk.metadata "d/link.txt" = Except.ok (mdFile 10)
      ∧ (mdFile 10).len ≤ argsBase.len
      ∧ fsOk.readToString "d/link.txt" = Except.ok "target.txt"
      ∧ link_target_exists fsOk (pathParent "d/link.txt") "target.txt" = true)
    ∧ convert_file fsOk stdinY 3 "d/link.txt" argsBase = ([], Halt.normal) :=
  ⟨⟨rfl, by decide, rfl, by decide⟩, by decide⟩

/-- C3 (counterexample): the claim's disjunction is wrong when the file
has a parent.  With an oracle in which only the bare path `x` exists,
the content `x` of a file under `d/` exists relative to the working
directory (the claim's branch (b)), yet `link_target_exists` rejects it:
with a parent present, only the parent-joined path is consulted. -/
theorem link_target_exists_no_cwd_fallback :
    ¬(link_target_exists fsOnlyX (some "d") "x" = true ↔
      (fsOnlyX.pathExists (pathJoin "d" "x") = true ∨
        fsOnlyX.pathExists "x" = true)) := by
  decide

/-- C3 (amended): a candidate is a valid target iff — when the file has
a parent directory — the content joined to that parent exists, and —
when it has none — the content exists as a path on its own; there is no
independent working-directory check in the parent case, beyond the one
`Path::join` semantics gives for free when the content is absolute
(an absolute content string replaces the parent entirely). -/
theorem link_target_exists_characterization (fs : FS) (p : Option String)
    (link d : String) :
    (((∃ q, p = some q ∧ fs.pathExists (pathJoin q link) = true) ∨
        (p = none ∧ fs.pathExists link = true)) ↔
      link_target_exists fs p link = true)
    ∧ link_target_exists fs (some d) link =
        (if isAbsolute link then fs.pathExists link
         else fs.pathExists (pathJoin d link)) := by
  constructor
  · cases p with
    | none => simp [link_target_exists]
    | some q =>
      simp only [link_target_exists]
      constructor
      · rintro (⟨q2, hq, h⟩ | ⟨h, -⟩)
        · cases hq; exact h
        · cases h
      · intro h; exact Or.inl ⟨q, rfl, h⟩
  · simp only [link_target_exists, pathJoin]
    by_cases habs : isAbsolute link = true <;> simp [habs]

/-- Sequencing of traversal results is associative. -/
lemma seqRes_assoc (a b c : List Event × Halt) :
    seqRes (seqRes a b) c = seqRes a (seqRes b c) := by
  rcases a with ⟨evs, ha⟩
  rcases b with ⟨evs2, hb⟩
  cases ha <;> cases hb <;> simp [seqRes, List.append_assoc]

/-- The traversal of a concatenation is the sequencing of the
traversals. -/
lemma convertEntries_append (fs : FS) (stdin : Nat → Char) (askFuel : Nat)
    (args : Args) (dirPath : String) (xs ys : List Entry) :
    convertEntries fs stdin askFuel args dirPath (xs ++ ys) =
      seqRes (convertEntries fs stdin askFuel args dirPath xs)
        (convertEntries fs stdin askFuel args dirPath ys) := by
  induction xs with
  | nil => simp [convertEntries, seqRes]
  | cons x rest ih =>
    cases x with
    | err msg => simp only [List.cons_append, convertEntries, ih, seqRes_assoc]
    | node p md sub =>
      cases md with
      | none => simp [convertEntries, seqRes]
      | some m =>
        cases sub with
        | error e =>
          simp only [List.cons_append, convertEntries, ih, seqRes_assoc]
        | ok es =>
          simp only [List.cons_append, convertEntries, ih, seqRes_assoc]

/-- When the metadata query on a file succeeds the conversion emits only
printed lines and halts normally (companion to the frame property of the
early `return`). -/
lemma convert_file_metaOk_prints (fs : FS) (stdin : Nat → Char)
    (askFuel : Nat) (p : String) (args : Args) (h : metaOk fs p = true) :
    (∀ ev ∈ (convert_file fs stdin askFuel p args).1, ∃ m, ev = Event.print m)
    ∧ (convert_file fs stdin askFuel p args).2 = Halt.normal := by
  unfold metaOk at h
  rcases hm : fs.metadata p with e | md
  · rw [hm] at h; cases h
  · unfold convert_file
    rw [hm]
    by_cases h1 : md.len > args.len <;> by_cases h2 : args.verbose = true <;>
      simp [h1, h2]

/-- Over a coherent tree the whole traversal emits only printed lines:
no entry ever reaches the filesystem-modifying path, because every
regular-file entry answers its metadata query and `convert_file` then
returns at once. -/
lemma convertEntries_coherent_prints (fs : FS) (stdin : Nat → Char)
    (askFuel : Nat) (args : Args) (dirPath : String) (l : List Entry) :
    entriesCoherent fs l = true →
      ∀ ev ∈ (convertEntries fs stdin askFuel args dirPath l).1,
        ∃ m, ev = Event.print m := by
  induction dirPath, l using convertEntries.induct fs stdin askFuel args with
  | case1 x => intro _ ev h; simp [convertEntries] at h
  | case2 dirPath msg rest ih =>
    intro hc ev h
    rw [entriesCoherent] at hc
    simp only [convertEntries, seqRes, List.mem_append, List.mem_singleton] at h
    rcases h with h | h
    · exact ⟨_, h⟩
    · exact ih hc ev h
  | case3 x path sub tail =>
    intro _ ev h
    simp [convertEntries] at h
  | case4 dirPath path m e rest ih =>
    intro hc ev h
    rw [entriesCoherent] at hc
    rw [Bool.and_eq_true] at hc
    simp only [convertEntries] at h
    rcases hhead : (if m.isDir then
        ([Event.print (printErrorMsg path e)], Halt.normal)
      else nonDirEntryRes fs stdin askFuel args path m) with ⟨hevs, hh⟩
    rw [hhead] at h
    have hev : ∀ ev2 ∈ hevs, ∃ msg, ev2 = Event.print msg := by
      intro ev2 hev2
      by_cases hd : m.isDir = true
      · rw [if_pos hd] at hhead
        obtain ⟨h1, -⟩ := Prod.mk.injEq .. ▸ hhead
        rw [← h1] at hev2
        simp only [List.mem_singleton] at hev2
        exact ⟨_, hev2⟩
      · rw [if_neg hd] at hhead
        by_cases hf : m.isFile = true
        · have hmo : metaOk fs path = true := by
            rw [if_neg hd, if_pos hf] at hc
            exact hc.1
          have := (convert_file_metaOk_prints fs stdin askFuel path args hmo).1
          unfold nonDirEntryRes at hhead
          rw [if_pos hf] at hhead
          rw [hhead] at this
          exact this ev2 hev2
        · unfold nonDirEntryRes at hhead
          rw [if_neg hf] at hhead
          by_cases hs : m.isSymlink = true
          · rw [if_pos hs] at hhead
            by_cases hv : args.verbose = true
            · rw [if_pos hv] at hhead
              obtain ⟨h1, -⟩ := Prod.mk.injEq .. ▸ hhead
              rw [← h1] at hev2
              simp only [List.mem_singleton] at hev2
              exact ⟨_, hev2⟩
            · rw [if_neg hv] at hhead
              obtain ⟨h1, -⟩ := Prod.mk.injEq .. ▸ hhead
              rw [← h1] at hev2
              simp at hev2
          · rw [if_neg hs] at hhead
            obtain ⟨h1, -⟩ := Prod.mk.injEq .. ▸ hhead
            rw [← h1] at hev2
            simp only [List.mem_singleton] at hev2
            exact ⟨_, hev2⟩
    cases hh with
    | normal =>
      simp only [seqRes, List.mem_append] at h
      rcases h with h | h
      · exact hev ev h
      · exact ih hc.2 ev h
    | panicked => simp only [seqRes] at h; exact hev ev h
    | stuck => simp only [seqRes] at h; exact hev ev h
  | case5 dirPath path m es rest ih1 ih2 =>
    intro hc ev h
    rw [entriesCoherent] at hc
    rw [Bool.and_eq_true] at hc
    simp only [convertEntries] at h
    rcases hhead : (if m.isDir then
        convertEntries fs stdin askFuel args path es
      else nonDirEntryRes fs stdin askFuel args path m) with ⟨hevs, hh⟩
    rw [hhead] at h
    have hev : ∀ ev2 ∈ hevs, ∃ msg, ev2 = Event.print msg := by
      intro ev2 hev2
      by_cases hd : m.isDir = true
      · rw [if_pos hd] at hhead
        have hce : entriesCoherent fs es = true := by
          rw [if_pos hd] at hc
          exact hc.1
        have := ih1 hce ev2
        rw [hhead] at this
        exact this hev2
      · rw [if_neg hd] at hhead
        by_cases hf : m.isFile = true
        · have hmo : metaOk fs path = true := by
            rw [if_neg hd, if_pos hf] at hc
            exact hc.1
          have := (convert_file_metaOk_prints fs stdin askFuel path args hmo).1
          unfold nonDirEntryRes at hhead
          rw [if_pos hf] at hhead
          rw [hhead] at this
          exact this ev2 hev2
        · unfold nonDirEntryRes at hhead
          rw [if_neg hf] at hhead
          by_cases hs : m.isSymlink = true
          · rw [if_pos hs] at hhead
            by_cases hv : args.verbose = true
            · rw [if_pos hv] at hhead
              obtain ⟨h1, -⟩ := Prod.mk.injEq .. ▸ hhead
              rw [← h1] at hev2
              simp only [List.mem_singleton] at hev2
              exact ⟨_, hev2⟩
            · rw [if_neg hv] at hhead
              obtain ⟨h1, -⟩ := Prod.mk.injEq .. ▸ hhead
              rw [← h1] at hev2
              simp at hev2
          · rw [if_neg hs] at hhead
            obtain ⟨h1, -⟩ := Prod.mk.injEq .. ▸ hhead
            rw [← h1] at hev2
            simp only [List.mem_singleton] at hev2
            exact ⟨_, hev2⟩
    cases hh with
    | normal =>
      simp only [seqRes, List.mem_append] at h
      rcases h with h | h
      · exact hev ev h
      · exact ih2 hc.2 ev h
    | panicked => simp only [seqRes] at h; exact hev ev h
    | stuck => simp only [seqRes] at h; exact hev ev h

/-- C5: when the metadata query of a directory entry fails, the
traversal panics (the source `unwrap`s the result): the events emitted
so far are kept, no per-entry error line is printed for it, and the
remaining entries — whatever they are — are never examined. -/
theorem convertEntries_metadata_failure_panics (fs : FS) (stdin : Nat → Char)
    (askFuel : Nat) (args : Args) (dirPath : String) (pre rest : List Entry)
    (p : String) (sub : Except String (List Entry)) (evs : List Event)
    (hpre : convertEntries fs stdin askFuel args dirPath pre =
      (evs, Halt.normal)) :
    convertEntries fs stdin askFuel args dirPath
        (pre ++ Entry.node p none sub :: rest) = (evs, Halt.panicked) := by
  rw [convertEntries_append, hpre]
  simp [convertEntries, seqRes]

/-- C5 witness: after one reported entry error, an entry with a failed
metadata query crashes the run; the trailing entries are dropped. -/
theorem convertEntries_metadata_failure_panics_w :
    convertEntries fsTree stdinY 3 argsBase "d"
        ([Entry.err "boom"] ++
          Entry.node "d/x" none (Except.error "e") :: [Entry.err "later"]) =
      ([Event.print (printErrorMsg "d" "boom")], Halt.panicked) :=
  convertEntries_metadata_failure_panics fsTree stdinY 3 argsBase "d"
    [Entry.err "boom"] [Entry.err "later"] "d/x" (Except.error "e")
    [Event.print (printErrorMsg "d" "boom")]
    (by simp [convertEntries, seqRes])

/-- C8: over a coherent tree (one in which every regular-file entry
answers its metadata query, as a real filesystem snapshot does) a run of
the traversal emits only printed lines — no removal, no symlink
creation.  The filesystem state is therefore unchanged by a run, so a
second run over the same directory sees the same state and performs no
conversion either: running the conversion twice is idempotent.
Moreover a symlink entry is skipped on sight, contributing exactly the
verbose skip notice with its resolved target (`read_link`, or the empty
default when unreadable) and nothing when not verbose. -/
theorem convertEntries_idempotent_symlink_skip (fs : FS) (stdin : Nat → Char)
    (askFuel : Nat) (args : Args) (dirPath : String) (l : List Entry)
    (hc : entriesCoherent fs l = true) :
    (∀ ev ∈ (convertEntries fs stdin askFuel args dirPath l).1,
      ∃ m, ev = Event.print m)
    ∧ (∀ p m sub rest, m.isDir = false → m.isFile = false →
        m.isSymlink = true →
        convertEntries fs stdin askFuel args dirPath
            (Entry.node p (some m) sub :: rest) =
          seqRes
            ((if args.verbose = true then
                [Event.print (skippedSymlinkMsg p ((fs.readLink p).getD ""))]
              else []), Halt.normal)
            (convertEntries fs stdin askFuel args dirPath rest)) := by
  constructor
  · exact convertEntries_coherent_prints fs stdin askFuel args dirPath l hc
  · intro p m sub rest hd hf hs
    cases sub with
    | error e =>
      by_cases hv : args.verbose = true <;>
        simp [convertEntries, nonDirEntryRes, hd, hf, hs, hv]
    | ok es =>
      by_cases hv : args.verbose = true <;>
        simp [convertEntries, nonDirEntryRes, hd, hf, hs, hv]

/-- C8 witness: over the coherent fixture tree every emitted event is a
printed line, and the symlink entry contributes exactly its skip
notice. -/
theorem convertEntries_idempotent_symlink_skip_w :
    (∀ ev ∈ (convertEntries fsTree stdinY 3 argsBase "d" treeW).1,
      ∃ m, ev = Event.print m)
    ∧ (∀ p m sub rest, m.isDir = false → m.isFile = false →
        m.isSymlink = true →
        convertEntries fsTree stdinY 3 argsBase "d"
            (Entry.node p (some m) sub :: rest) =
          seqRes
            ((if argsBase.verbose = true then
                [Event.print (skippedSymlinkMsg p ((fsTree.readLink p).getD ""))]
              else []), Halt.normal)
            (convertEntries fsTree stdinY 3 argsBase "d" rest)) :=
  convertEntries_idempotent_symlink_skip fsTree stdinY 3 argsBase "d" treeW
    (by simp [treeW, entriesCoherent, metaOk, fsTree, mdDir, mdLink, mdFile])

/-- C9: when the root path is a directory and `recursive` is unset, the
program prints one error line for it and halts normally; whatever the
directory contains (the listing is arbitrary here), it is never
descended into and no filesystem action happens. -/
theorem mainRun_directory_without_recursive (fs : FS) (stdin : Nat → Char)
    (askFuel : Nat) (args : Args)
    (rootListing : Except String (List Entry)) (md : Metadata)
    (hmd : fs.metadata args.path = Except.ok md)
    (hdir : md.isDir = true) (hrec : args.recursive = false) :
    mainRun fs stdin askFuel args rootListing =
      ([Event.print (printErrorMsg args.path
          ("Is a directory. Please specify " ++ squote ++ "recursive" ++
            squote ++ " flag"))], Halt.normal) := by
  unfold mainRun
  rw [hmd]
  simp [hdir, hrec]

/-- C9 witness: the directory `d` without `recursive`, over a listing
that would crash the run were it descended into, still yields only the
error line. -/
theorem mainRun_directory_without_recursive_w :
    mainRun fsOk stdinY 3 { argsBase with recursive := false }
        (Except.ok [Entry.node "d/x" none (Except.error "e")]) =
      ([Event.print (printErrorMsg "d"
          ("Is a directory. Please specify " ++ squote ++ "recursive" ++
            squote ++ " flag"))], Halt.normal) :=
  mainRun_directory_without_recursive fsOk stdinY 3
    { argsBase with recursive := false }
    (Except.ok [Entry.node "d/x" none (Except.error "e")]) mdDir rfl rfl rfl

end RestoreSymlink
